import Mathlib

/-!
Shallow embedding of the ZOQQ client-side animation scheduler
(src/assets/js/main.js). The file models the two StatsCounter driver
variants (verbose, lines 522-582; production, lines 1909-1938), the
one-shot latch callbacks, the application module initializer of both
variants, the fixed-delay fallback schedules, the search-widget
sequencer and the transaction restart operation. Time and numeric
values are modelled over ℚ; the result of a JavaScript parse that may
be NaN is modelled as an Option.
-/

/-- Parameters of one counter run, as parsed in animateCounter
(main.js 522-527) and animate (main.js 1909-1914): target value,
duration in ms, decimal precision, and the text placed before and
after the number. -/
structure CounterParams where
  target : ℚ
  duration : ℤ
  decimals : ℤ
  pre : String
  suf : String
deriving DecidableEq

/-- Progress of a run at wall-clock time `now`, as computed on each
tick (main.js 541-542 and 1921-1922): `min(elapsed / duration, 1)`.
Only an upper clamp is present in the source. -/
def progressAt (duration : ℤ) (startTime now : ℚ) : ℚ :=
  min ((now - startTime) / (duration : ℚ)) 1

/-- Quartic ease-out curve (main.js 545 and 1923):
`1 - Math.pow(1 - progress, 4)`. -/
def easeOutQuart (progress : ℚ) : ℚ :=
  1 - (1 - progress) ^ 4

/-- The fixed start value of the verbose driver (main.js 535). -/
def startValue : ℚ := 0

/-- Value computed by the verbose driver on one tick (main.js 546):
`startValue + (target - startValue) * easeOutQuart`. -/
def currentVerbose (p : CounterParams) (st now : ℚ) : ℚ :=
  startValue + (p.target - startValue) * easeOutQuart (progressAt p.duration st now)

/-- Value computed by the production driver on one tick
(main.js 1924): `target * eased`. -/
def currentProd (p : CounterParams) (st now : ℚ) : ℚ :=
  p.target * easeOutQuart (progressAt p.duration st now)

/-- JavaScript `Number.prototype.toFixed(d)` for `1 ≤ d`, over ℚ: the
integer nearest to `x * 10^d` (ties toward the larger integer),
rendered with a decimal point and `d` fractional digits. -/
def jsToFixed (x : ℚ) (d : ℕ) : String :=
  let n : ℤ := ⌊x * (10 : ℚ) ^ d + 1 / 2⌋
  let sign : String := if n < 0 then ("-") else ("")
  let m : ℕ := n.natAbs
  let ip : ℕ := m / 10 ^ d
  let fp : ℕ := m % 10 ^ d
  let fpStr : String := toString fp
  sign ++ toString ip ++ (".") ++ String.mk (List.replicate (d - fpStr.length) '0') ++ fpStr

/-- JavaScript `toFixed` including its domain check: it throws a
RangeError (modelled as `none`) when the digit count is negative or
above 100. -/
def jsToFixedChecked (x : ℚ) (d : ℤ) : Option String :=
  if d < 0 ∨ 100 < d then none else some (jsToFixed x d.toNat)

/-- Number formatting of the verbose driver (main.js 549-551):
`decimals > 0 ? currentValue.toFixed(decimals) : Math.floor(currentValue)`. -/
def fmtVerbose (x : ℚ) (d : ℤ) : Option String :=
  if 0 < d then jsToFixedChecked x d else some (toString ⌊x⌋)

/-- Number formatting of the production driver (main.js 1926):
`decimals ? current.toFixed(decimals) : Math.floor(current)`, where
a JavaScript number is falsy exactly when it is 0 (NaN is excluded by
the `parseInt(...) || 0` default). -/
def fmtProd (x : ℚ) (d : ℤ) : Option String :=
  if d = 0 then some (toString ⌊x⌋) else jsToFixedChecked x d

/-- Text written to the element by one verbose tick (main.js 553):
the formatted value surrounded by the prefix and suffix texts.
`none` models the tick throwing before the write. -/
def writeVerbose (p : CounterParams) (st now : ℚ) : Option String :=
  (fmtVerbose (currentVerbose p st now) p.decimals).map fun s => p.pre ++ s ++ p.suf

/-- Text written to the element by one production tick (main.js 1926). -/
def writeProd (p : CounterParams) (st now : ℚ) : Option String :=
  (fmtProd (currentProd p st now) p.decimals).map fun s => p.pre ++ s ++ p.suf

/-- Strings written by the verbose requestAnimationFrame loop
(main.js 540-571) over a given sequence of tick timestamps: each tick
writes, and a further tick is scheduled only while `progress < 1`
(main.js 555-556). A tick that throws (`none`) writes nothing and
schedules nothing. -/
def runVerbose (p : CounterParams) (st : ℚ) : List ℚ → List String
  | [] => []
  | now :: ts =>
    match writeVerbose p st now with
    | none => []
    | some s =>
      if progressAt p.duration st now < 1 then s :: runVerbose p st ts else [s]

/-- Strings written by the production requestAnimationFrame loop
(main.js 1920-1929) over a given sequence of tick timestamps. -/
def runProd (p : CounterParams) (st : ℚ) : List ℚ → List String
  | [] => []
  | now :: ts =>
    match writeProd p st now with
    | none => []
    | some s =>
      if progressAt p.duration st now < 1 then s :: runProd p st ts else [s]

/-- Tick timestamps actually processed by the loop: the given
sequence, cut after the first tick whose progress reached 1
(main.js 555-556 and 1928). -/
def procTicks (p : CounterParams) (st : ℚ) : List ℚ → List ℚ
  | [] => []
  | now :: ts =>
    if progressAt p.duration st now < 1 then now :: procTicks p st ts else [now]

/-- Attribute values of a counter element after the JavaScript parse
calls (main.js 523-527 and 1910-1914). `targetAttr` is the result of
`parseFloat(element.dataset.target)` with `none` modelling NaN;
`durationAttr` and `decimalsAttr` are the results of `parseInt` with
`none` modelling NaN; the text attributes are `none` when absent. -/
structure RawCounterData where
  targetAttr : Option ℚ
  durationAttr : Option ℤ
  decimalsAttr : Option ℤ
  preAttr : Option String
  sufAttr : Option String
deriving DecidableEq

/-- JavaScript `parseInt(x) || dflt`: NaN and 0 are falsy, so both
fall back to the default. -/
def jsOrInt (x : Option ℤ) (dflt : ℤ) : ℤ :=
  match x with
  | none => dflt
  | some v => if v = 0 then dflt else v

/-- JavaScript `x || ''` over an optional text attribute: an absent
attribute (undefined) and an empty string both give the empty
string. -/
def jsOrStr (x : Option String) : String :=
  x.getD ("")

/-- Outcome of calling the driver on one element: either it returned
before scheduling any tick, or it scheduled the first tick with the
parsed parameters. -/
inductive AnimStart where
  | aborted : AnimStart
  | started : CounterParams → AnimStart
deriving DecidableEq

/-- The driver entry animateCounter (main.js 522-532) and animate
(main.js 1909-1916): parse the attributes with their defaults; if the
target is NaN, return without scheduling anything (main.js 529-532 and
1916); otherwise schedule the first tick. Both variants parse and
guard identically. Totality of this function models that the driver
itself throws no exception. -/
def animateCounter (e : RawCounterData) : AnimStart :=
  match e.targetAttr with
  | none => AnimStart.aborted
  | some t =>
    AnimStart.started
      { target := t
        duration := jsOrInt e.durationAttr 2000
        decimals := jsOrInt e.decimalsAttr 0
        pre := jsOrStr e.preAttr
        suf := jsOrStr e.sufAttr }

/-- Strings written by a driver call over the given tick timestamps:
an aborted call registered no requestAnimationFrame callback, so
nothing is ever written. -/
def runFromStart : AnimStart → ℚ → List ℚ → List String
  | AnimStart.aborted, _, _ => []
  | AnimStart.started p, st, ts => runVerbose p st ts

/-- One visibility event delivered to an observer callback: the
identity of the target and its `isIntersecting` flag. -/
structure ObsEntry where
  targetId : ℕ
  isIntersecting : Bool
deriving DecidableEq

/-- The stats observer callback body for one entry (main.js 503-507,
production 1897-1902): when the entry intersects and the target is
not in the animated set, start one animation run and add the target
to the set. Returns the new set and the number of runs started (0 or
1). The production variant additionally unobserves the target, which
changes event delivery but not this latch logic. -/
def statsStep (animated : Finset ℕ) (e : ObsEntry) : Finset ℕ × ℕ :=
  if e.isIntersecting = true ∧ e.targetId ∉ animated then
    (insert e.targetId animated, 1)
  else
    (animated, 0)

/-- Deliver a list of entries to the stats observer callback in
order, counting how many animation runs are started. -/
def statsRun (animated : Finset ℕ) : List ObsEntry → Finset ℕ × ℕ
  | [] => (animated, 0)
  | e :: es =>
    let r := statsStep animated e
    let rest := statsRun r.1 es
    (rest.1, r.2 + rest.2)

/-- The transaction observer callback body for one entry
(main.js 655-660, production 1971-1976): when the entry intersects
and the boolean latch is still clear, start the sequence and set the
latch. -/
def transStep (flag : Bool) (e : ObsEntry) : Bool × ℕ :=
  if e.isIntersecting = true ∧ flag = false then (true, 1) else (flag, 0)

/-- Deliver a list of entries to the transaction observer callback in
order, counting how many sequence runs are started. -/
def transRun (flag : Bool) : List ObsEntry → Bool × ℕ
  | [] => (flag, 0)
  | e :: es =>
    let r := transStep flag e
    let rest := transRun r.1 es
    (rest.1, r.2 + rest.2)

/-- Number of module init calls performed by the verbose
ZOQQApp.initModules (main.js 1565-1572) when the modules in the list
throw (`true`) or return normally (`false`): each init sits in its
own try/catch, so the loop always continues to the next module. -/
def initModulesVerbose : List Bool → ℕ
  | [] => 0
  | _ :: rest => 1 + initModulesVerbose rest

/-- Number of module init calls performed by the production
ZOQQApp.init (main.js 2234-2250): the whole `modules.forEach` loop
sits inside one try/catch, so a throwing init aborts the loop and no
later module is initialized. -/
def initModulesProd : List Bool → ℕ
  | [] => 0
  | m :: rest => 1 + (if m then 0 else initModulesProd rest)

/-- CONFIG.STAGGER_DELAY (main.js 31). -/
def STAGGER_DELAY : ℕ := 100

/-- Fallback delay of the i-th stats counter in the verbose variant
when IntersectionObserver is absent (main.js 580):
`500 + (index * 200)`. -/
def statsFallbackDelay (i : ℕ) : ℕ := 500 + i * 200

/-- Fallback delay of the i-th stats counter in the production
variant (main.js 1936): `500 + i * 200`. -/
def statsFallbackDelayProd (i : ℕ) : ℕ := 500 + i * 200

/-- Fallback delay of the i-th entrance-animation element in
AnimationModule.fallbackAnimation (main.js 867) and the production
Animations fallback (main.js 2023): `index * CONFIG.STAGGER_DELAY`. -/
def animFallbackDelay (i : ℕ) : ℕ := i * STAGGER_DELAY

/-- Fallback delay of the transaction sequence in the same fallback
paths (main.js 871-873 and 2025): a flat 2000 ms. -/
def animFallbackTransactionDelay : ℕ := 2000

/-- A log of fired and scheduled actions: the current wall-clock time
of the synchronous execution, and the accumulated list of
(fire time, action id) pairs. -/
structure TimerLog where
  now : ℚ
  fired : List (ℚ × ℕ)

/-- Model of `setTimeout(action, delayMs)` performed during a
synchronous run: the action will fire at the current time plus the
delay. -/
def schedule (delayMs : ℚ) (action : ℕ) (log : TimerLog) : TimerLog :=
  { log with fired := log.fired ++ [(log.now + delayMs, action)] }

/-- An action invoked directly (not through a timer) during a
synchronous run: it fires at the current time. -/
def runNow (action : ℕ) (log : TimerLog) : TimerLog :=
  { log with fired := log.fired ++ [(log.now, action)] }

/-- SearchInterface.startAnimationSequence (main.js 1230-1253)
executed synchronously at trigger time `T`: show the icon phase
immediately (action 0), then register timers for the input phase with
typing at 3000 ms (action 1), the processing phase at 5500 ms
(action 2) and the results phase with suggestions at 7500 ms
(action 3). All four registrations happen in the single synchronous
run, so `now` never advances between them. -/
def startAnimationSequence (T : ℚ) : List (ℚ × ℕ) :=
  (schedule 7500 3 (schedule 5500 2 (schedule 3000 1 (runNow 0 { now := T, fired := [] })))).fired

/-- SearchUI.startSequence (main.js 2156-2168) executed synchronously
at trigger time `T`: for each phase index i in 0..3 register a timer
at `i * 2000 + 500` ms. -/
def startSequenceProd (T : ℚ) : List (ℚ × ℕ) :=
  ((List.range 4).foldl (fun log (i : ℕ) => schedule ((i : ℚ) * 2000 + 500) i log)
    { now := T, fired := [] }).fired

/-- Top-level timers registered by
AnimationModule.animateTransactionSection (main.js 674-706) and the
production animateTransactions (main.js 1984-1996) when invoked at
time `T` with `nItems` transaction items: item i starts at
`i * 200` ms (action i), the circles start at
`nItems * 200 + 500` ms (action 100), and the list scroll starts at
`nItems * 200 + 2000` ms (action 101). -/
def animateTransactions (T : ℚ) (nItems : ℕ) : List (ℚ × ℕ) :=
  ((List.range nItems).map fun (i : ℕ) => (T + (i : ℚ) * 200, i)) ++
    [(T + (nItems : ℚ) * 200 + 500, 100), (T + (nItems : ℚ) * 200 + 2000, 101)]

/-- AnimationModule.restartTransactionAnimation (main.js 902-908) and
the production restart (main.js 2028-2032): clear the one-shot latch,
then, when the transaction section element exists, invoke the
sequence again at the current time. Returns the new latch value and
the timers registered. -/
def restartTransaction (_flag : Bool) (sectionExists : Bool) (T : ℚ) (nItems : ℕ) :
    Bool × List (ℚ × ℕ) :=
  (false, if sectionExists then animateTransactions T nItems else [])

/-- The concrete counter run named by the spec example: target 1234,
duration 2000 ms, no decimals, dollar prefix, plus suffix. -/
def p1234 : CounterParams :=
  { target := 1234, duration := 2000, decimals := 0, pre := "$", suf := "+" }

/-- For a nonnegative decimal count the two formatting expressions
agree: `decimals > 0` and truthiness of `decimals` pick the same
branch. -/
lemma fmt_eq_of_nonneg (x : ℚ) (d : ℤ) (hd : 0 ≤ d) : fmtProd x d = fmtVerbose x d := by
  rcases eq_or_lt_of_le hd with h | h
  · simp [fmtProd, fmtVerbose, ← h]
  · simp [fmtProd, fmtVerbose, h, h.ne.symm]

/-- The production tick value `target * eased` equals the verbose
tick value `startValue + (target - startValue) * eased` since the
start value is 0. -/
lemma current_eq (p : CounterParams) (st now : ℚ) :
    currentProd p st now = currentVerbose p st now := by
  simp only [currentProd, currentVerbose, startValue]
  ring

/-- Progress is strictly below 1 exactly while elapsed time is below
the duration. -/
lemma progressAt_lt_one_iff {dur : ℤ} (hd : (0 : ℚ) < (dur : ℚ)) (st now : ℚ) :
    progressAt dur st now < 1 ↔ now - st < (dur : ℚ) := by
  rw [progressAt, min_lt_iff, div_lt_one hd]
  simp

/-- Once elapsed time reaches the duration, the upper clamp makes the
progress exactly 1. -/
lemma progressAt_eq_one {dur : ℤ} (hd : (0 : ℚ) < (dur : ℚ)) {st now : ℚ}
    (hel : (dur : ℚ) ≤ now - st) : progressAt dur st now = 1 :=
  min_eq_right ((one_le_div hd).mpr hel)

/-- At progress 1 the verbose driver computes exactly the target. -/
lemma currentVerbose_at_complete (p : CounterParams) (hd : (0 : ℚ) < (p.duration : ℚ))
    {st now : ℚ} (hel : (p.duration : ℚ) ≤ now - st) : currentVerbose p st now = p.target := by
  simp [currentVerbose, startValue, easeOutQuart, progressAt_eq_one hd hel]

/-- At progress 1 the production driver computes exactly the target. -/
lemma currentProd_at_complete (p : CounterParams) (hd : (0 : ℚ) < (p.duration : ℚ))
    {st now : ℚ} (hel : (p.duration : ℚ) ≤ now - st) : currentProd p st now = p.target := by
  simp [currentProd, easeOutQuart, progressAt_eq_one hd hel]

/-- The ease-out curve is monotone on arguments at most 1. -/
lemma easeOutQuart_mono {a b : ℚ} (hb : b ≤ 1) (hab : a ≤ b) :
    easeOutQuart a ≤ easeOutQuart b := by
  unfold easeOutQuart
  have h0 : (0 : ℚ) ≤ 1 - b := by linarith
  have h4 := pow_le_pow_left₀ h0 (by linarith : 1 - b ≤ 1 - a) 4
  linarith

/-- For a positive duration, progress is monotone in the tick time. -/
lemma progressAt_mono {dur : ℤ} (hd : (0 : ℚ) < (dur : ℚ)) (st : ℚ) {n1 n2 : ℚ}
    (h : n1 ≤ n2) : progressAt dur st n1 ≤ progressAt dur st n2 := by
  unfold progressAt
  exact min_le_min ((div_le_div_iff_of_pos_right hd).mpr (by linarith)) le_rfl

/-- For a nonnegative target and a positive duration, the verbose
tick value is monotone in the tick time. -/
lemma currentVerbose_mono (p : CounterParams) (hd : (0 : ℚ) < (p.duration : ℚ))
    (htgt : 0 ≤ p.target) (st : ℚ) {n1 n2 : ℚ} (h : n1 ≤ n2) :
    currentVerbose p st n1 ≤ currentVerbose p st n2 := by
  have he := easeOutQuart_mono (min_le_right _ 1) (progressAt_mono hd st h)
  simp only [currentVerbose, startValue, sub_zero, zero_add]
  exact mul_le_mul_of_nonneg_left he htgt

/-- With zero decimals no tick can throw, and the run writes the
floored eased value for exactly the processed tick timestamps. -/
lemma runVerbose_eq_map (p : CounterParams) (hp : p.decimals = 0) (st : ℚ) (ts : List ℚ) :
    runVerbose p st ts =
      (procTicks p st ts).map
        fun now => p.pre ++ toString ⌊currentVerbose p st now⌋ ++ p.suf := by
  induction ts with
  | nil => rfl
  | cons now rest ih =>
    have hw : writeVerbose p st now =
        some (p.pre ++ toString ⌊currentVerbose p st now⌋ ++ p.suf) := by
      simp [writeVerbose, fmtVerbose, hp]
    simp only [runVerbose, procTicks, hw]
    split
    · simp [ih]
    · rfl

/-- The processed ticks form a sublist (in fact a prefix) of the
given tick timestamps. -/
lemma procTicks_sublist (p : CounterParams) (st : ℚ) (ts : List ℚ) :
    List.Sublist (procTicks p st ts) ts := by
  induction ts with
  | nil => simp [procTicks]
  | cons now rest ih =>
    rw [procTicks]
    split
    · exact ih.cons₂ now
    · exact (List.nil_sublist rest).cons₂ now

/-- getLast? ignores a cons onto a nonempty list. -/
lemma getLast?_cons_of_ne {α : Type} (a : α) {l : List α} (h : l ≠ []) :
    (a :: l).getLast? = l.getLast? := by
  cases l with
  | nil => exact absurd rfl h
  | cons b t => exact List.getLast?_cons_cons

/-- If some tick timestamp reaches the completion time, the processed
ticks end at a tick that reached it. -/
lemma procTicks_getLast (p : CounterParams) (hd : (0 : ℚ) < (p.duration : ℚ)) (st : ℚ)
    (ts : List ℚ) (hfin : ∃ t ∈ ts, st + (p.duration : ℚ) ≤ t) :
    ∃ tl, (procTicks p st ts).getLast? = some tl ∧ st + (p.duration : ℚ) ≤ tl := by
  induction ts with
  | nil => simp at hfin
  | cons now rest ih =>
    rw [procTicks]
    split
    · rename_i hlt
      have hnow : now - st < (p.duration : ℚ) := (progressAt_lt_one_iff hd st now).mp hlt
      obtain ⟨t, ht, htle⟩ := hfin
      rcases List.mem_cons.mp ht with rfl | htr
      · exact absurd htle (by linarith)
      · obtain ⟨tl, h1, h2⟩ := ih ⟨t, htr, htle⟩
        refine ⟨tl, ?_, h2⟩
        rw [getLast?_cons_of_ne now (by intro h0; rw [h0] at h1; simp at h1), h1]
    · rename_i hge
      refine ⟨now, by simp, ?_⟩
      have := (progressAt_lt_one_iff hd st now).not.mp hge
      push_neg at this
      linarith

/-- C1: for every counter run with a numeric target, a positive
duration, and a decimal count in the range `toFixed` accepts, both
driver variants write, on any tick where progress has reached 1, the
exact target value formatted with the specified decimals and
surrounded by the prefix and suffix — never an eased intermediate
value — including non-integer targets with decimals 0. The elapsed
time reaching the duration is exactly the condition under which the
upper clamp makes progress 1. -/
theorem final_tick_displays_exact_target (p : CounterParams) (st now : ℚ)
    (hdur : 0 < p.duration) (hd0 : 0 ≤ p.decimals) (hd1 : p.decimals ≤ 100)
    (hel : (p.duration : ℚ) ≤ now - st) :
    ∃ f, fmtVerbose p.target p.decimals = some f ∧
      writeVerbose p st now = some (p.pre ++ f ++ p.suf) ∧
      writeProd p st now = some (p.pre ++ f ++ p.suf) := by
  have hd : (0 : ℚ) < (p.duration : ℚ) := by exact_mod_cast hdur
  have hcv := currentVerbose_at_complete p hd hel
  have hcp := currentProd_at_complete p hd hel
  have hsome : ∃ f, fmtVerbose p.target p.decimals = some f := by
    rcases eq_or_lt_of_le hd0 with h | h
    · exact ⟨toString ⌊p.target⌋, by simp [fmtVerbose, ← h]⟩
    · have hcond : ¬(p.decimals < 0 ∨ 100 < p.decimals) := by
        push_neg
        exact ⟨hd0, hd1⟩
      exact ⟨jsToFixed p.target p.decimals.toNat,
        by simp [fmtVerbose, h, jsToFixedChecked, hcond]⟩
  obtain ⟨f, hf⟩ := hsome
  refine ⟨f, hf, ?_, ?_⟩
  · rw [writeVerbose, hcv, hf]
    rfl
  · rw [writeProd, hcp, fmt_eq_of_nonneg _ _ hd0, hf]
    rfl

/-- Witness for C1 at target 3/2, duration 2000, decimals 0: the
final write floors the exact non-integer target. -/
theorem final_tick_displays_exact_target_witness :
    (0 : ℤ) < 2000 ∧ (0 : ℤ) ≤ 0 ∧ (0 : ℤ) ≤ 100 ∧ (((2000 : ℤ) : ℚ)) ≤ 2000 - 0 ∧
      (∃ f, fmtVerbose ((3 : ℚ) / 2) 0 = some f ∧
        writeVerbose ⟨3 / 2, 2000, 0, ("$"), ("+")⟩ 0 2000 = some (("$") ++ f ++ ("+")) ∧
        writeProd ⟨3 / 2, 2000, 0, ("$"), ("+")⟩ 0 2000 = some (("$") ++ f ++ ("+"))) :=
  ⟨by decide, by decide, by decide, by norm_num,
    final_tick_displays_exact_target ⟨3 / 2, 2000, 0, ("$"), ("+")⟩ 0 2000 (by decide)
      (by decide) (by decide) (by norm_num)⟩

/-- C2: on every tick with a positive duration and a tick timestamp
not before the start timestamp, the value both variants compute is
`start + (target - start) * (1 - (1 - t)^4)` with start 0 and
`t = clamp(elapsed / duration, 0, 1)`: under those conditions the
source's upper-only clamp coincides with the spec's two-sided
clamp. -/
theorem tick_value_matches_spec_easing (p : CounterParams) (st now : ℚ)
    (hdur : 0 < p.duration) (hmono : st ≤ now) :
    currentVerbose p st now =
      0 + (p.target - 0) *
        (1 - (1 - max 0 (min ((now - st) / (p.duration : ℚ)) 1)) ^ 4) ∧
    currentProd p st now =
      0 + (p.target - 0) *
        (1 - (1 - max 0 (min ((now - st) / (p.duration : ℚ)) 1)) ^ 4) := by
  have hd : (0 : ℚ) < (p.duration : ℚ) := by exact_mod_cast hdur
  have hr : (0 : ℚ) ≤ (now - st) / (p.duration : ℚ) := div_nonneg (by linarith) hd.le
  have hmax : max 0 (min ((now - st) / (p.duration : ℚ)) 1) =
      min ((now - st) / (p.duration : ℚ)) 1 :=
    max_eq_right (le_min hr (by norm_num))
  rw [hmax]
  constructor
  · simp only [currentVerbose, startValue, easeOutQuart, progressAt]
  · simp only [currentProd, easeOutQuart, progressAt]
    ring

/-- Witness for C2 at target 1234, duration 2000, tick at 1000 ms. -/
theorem tick_value_matches_spec_easing_witness :
    (0 : ℤ) < 2000 ∧ (0 : ℚ) ≤ 1000 ∧
      (currentVerbose ⟨1234, 2000, 0, ("$"), ("+")⟩ 0 1000 =
          0 + ((1234 : ℚ) - 0) *
            (1 - (1 - max 0 (min ((1000 - 0) / (((2000 : ℤ)) : ℚ)) 1)) ^ 4) ∧
        currentProd ⟨1234, 2000, 0, ("$"), ("+")⟩ 0 1000 =
          0 + ((1234 : ℚ) - 0) *
            (1 - (1 - max 0 (min ((1000 - 0) / (((2000 : ℤ)) : ℚ)) 1)) ^ 4)) :=
  ⟨by decide, by norm_num,
    tick_value_matches_spec_easing ⟨1234, 2000, 0, ("$"), ("+")⟩ 0 1000 (by decide)
      (by norm_num)⟩

/-- C4: when the data-target attribute does not parse as a number,
the driver returns before scheduling any tick, so nothing is ever
written to the element; the embedded driver is a total function, so
no exception escapes to the caller. Both source variants share the
identical parse-and-guard code. -/
theorem invalid_target_aborts (e : RawCounterData) (h : e.targetAttr = none) :
    animateCounter e = AnimStart.aborted ∧
      ∀ (st : ℚ) (ts : List ℚ), runFromStart (animateCounter e) st ts = [] := by
  have ha : animateCounter e = AnimStart.aborted := by
    simp [animateCounter, h]
  exact ⟨ha, fun st ts => by rw [ha, runFromStart]⟩

/-- Witness for C4 on an element whose data-target is non-numeric
while every other attribute is present and well-formed. -/
theorem invalid_target_aborts_witness :
    (⟨none, some 1000, some 2, some ("$"), some ("+")⟩ : RawCounterData).targetAttr = none ∧
      (animateCounter ⟨none, some 1000, some 2, some ("$"), some ("+")⟩ = AnimStart.aborted ∧
        ∀ (st : ℚ) (ts : List ℚ),
          runFromStart (animateCounter ⟨none, some 1000, some 2, some ("$"), some ("+")⟩)
            st ts = []) :=
  ⟨rfl, invalid_target_aborts ⟨none, some 1000, some 2, some ("$"), some ("+")⟩ rfl⟩

/-- Counterexample for C10 as stated: with parsed decimals -1 (a
data-decimals attribute of "-1"), the verbose driver floors and
writes "5" on the completing tick, while the production driver's
`current.toFixed(-1)` throws a RangeError, so the production run
writes nothing. The displayed strings are not identical on every
tick. -/
theorem drivers_differ_on_negative_decimals :
    runVerbose ⟨5, 2000, -1, "", ""⟩ 0 [2000] = [("5")] ∧
      runProd ⟨5, 2000, -1, "", ""⟩ 0 [2000] = [] ∧
      (([("5")] : List String) ≠ ([] : List String)) := by
  refine ⟨?_, ?_, by decide⟩
  · norm_num [runVerbose, writeVerbose, fmtVerbose, currentVerbose, progressAt, easeOutQuart,
      startValue]
    decide
  · norm_num [runProd, writeProd, fmtProd, jsToFixedChecked]

/-- C10 amended: whenever the parsed decimals value is nonnegative,
the verbose driver (start + (target - start) * eased with start 0)
and the production driver (target * eased) write identical strings on
every tick of any tick-timestamp sequence. -/
theorem drivers_equivalent_amended (p : CounterParams) (hd : 0 ≤ p.decimals) (st : ℚ)
    (ts : List ℚ) : runProd p st ts = runVerbose p st ts := by
  induction ts with
  | nil => rfl
  | cons now rest ih =>
    have hw : writeProd p st now = writeVerbose p st now := by
      rw [writeProd, writeVerbose, fmt_eq_of_nonneg _ _ hd, current_eq]
    simp only [runProd, runVerbose, hw]
    cases writeVerbose p st now with
    | none => rfl
    | some s => simp only [ih]

/-- Witness for the amended C10 on the spec's example counter over
two ticks. -/
theorem drivers_equivalent_amended_witness :
    (0 : ℤ) ≤ 0 ∧
      runProd ⟨1234, 2000, 0, ("$"), ("+")⟩ 0 [1000, 2000] =
        runVerbose ⟨1234, 2000, 0, ("$"), ("+")⟩ 0 [1000, 2000] :=
  ⟨by decide, drivers_equivalent_amended ⟨1234, 2000, 0, ("$"), ("+")⟩ (by decide) 0
    [1000, 2000]⟩

/-- Once the target is in the animated set, further events for it
start no runs and leave the set unchanged. -/
lemma statsRun_latched (A : Finset ℕ) (x : ℕ) (hx : x ∈ A) (n : ℕ) :
    statsRun A (List.replicate n ⟨x, true⟩) = (A, 0) := by
  induction n with
  | zero => rfl
  | succ m ih =>
    have hstep : statsStep A ⟨x, true⟩ = (A, 0) := by
      simp [statsStep, hx]
    simp [List.replicate_succ, statsRun, hstep, ih]

/-- Once the boolean latch is set, further events start no runs. -/
lemma transRun_latched (l : List ObsEntry) : transRun true l = (true, 0) := by
  induction l with
  | nil => rfl
  | cons e es ih =>
    have hstep : transStep true e = (true, 0) := by
      simp [transStep]
    simp [transRun, hstep, ih]

/-- C3: delivering any number n ≥ 1 of intersecting visibility events
for one target starts exactly one animation run, for the stats
counters' animated set (target initially not in the set) and for the
transaction section's boolean flag (initially clear). No reset occurs
among the delivered events. -/
theorem latch_single_run (A : Finset ℕ) (x n : ℕ) (hn : 1 ≤ n) (hx : x ∉ A) :
    (statsRun A (List.replicate n ⟨x, true⟩)).2 = 1 ∧
      (transRun false (List.replicate n ⟨x, true⟩)).2 = 1 := by
  obtain ⟨m, rfl⟩ : ∃ m, n = m + 1 := ⟨n - 1, by omega⟩
  constructor
  · have hstep : statsStep A ⟨x, true⟩ = (insert x A, 1) := by
      simp [statsStep, hx]
    simp [List.replicate_succ, statsRun, hstep,
      statsRun_latched (insert x A) x (Finset.mem_insert_self x A)]
  · have hstep : transStep false ⟨x, true⟩ = (true, 1) := by
      simp [transStep]
    simp [List.replicate_succ, transRun, hstep, transRun_latched]

/-- Witness for C3: three intersection events for target 7 against an
empty registry start exactly one run in both latch forms. -/
theorem latch_single_run_witness :
    1 ≤ 3 ∧ 7 ∉ (∅ : Finset ℕ) ∧
      ((statsRun ∅ (List.replicate 3 ⟨7, true⟩)).2 = 1 ∧
        (transRun false (List.replicate 3 ⟨7, true⟩)).2 = 1) :=
  ⟨by decide, by decide, latch_single_run ∅ 7 3 (by decide) (by decide)⟩

/-- Counterexample for C5 as stated: with a module list in which the
first module's init throws and the second returns normally, the
production ZOQQApp.init invokes only the first init (its single
try/catch is outside the forEach loop), while the verbose
initModules invokes both. The per-module catch boundary does not hold
in both source variants. -/
theorem prod_init_stops_after_throw :
    initModulesProd [true, false] = 1 ∧ initModulesVerbose [true, false] = 2 ∧
      (1 : ℕ) ≠ 2 :=
  ⟨rfl, rfl, by decide⟩

/-- C5 amended: the verbose variant catches at the per-module
boundary, so every module's init is invoked no matter which modules
throw; the production variant wraps the whole loop in one try/catch,
so whenever the first throwing module sits at any position k (after k
non-throwing modules, with arbitrary modules after it), exactly the
first k + 1 inits are invoked and every later module's init never
runs. -/
theorem init_boundary_amended (mods rest : List Bool) (k : ℕ) :
    initModulesVerbose mods = mods.length ∧
      initModulesProd (List.replicate k false ++ true :: rest) = k + 1 := by
  constructor
  · induction mods with
    | nil => rfl
    | cons m t ih =>
      simp [initModulesVerbose, ih]
      omega
  · induction k with
    | zero => simp [initModulesProd]
    | succ n ih =>
      simp [List.replicate_succ, initModulesProd, ih]
      omega

/-- Counterexample for C6 as stated: the entrance-animation fallback
schedules its 0th element at 0 ms, not at 500 ms, so not every module
taking the fallback path uses the 500 + 200·i schedule. -/
theorem anim_fallback_breaks_stats_schedule :
    animFallbackDelay 0 = 0 ∧ statsFallbackDelay 0 = 500 ∧ (0 : ℕ) ≠ 500 :=
  ⟨rfl, rfl, by decide⟩

/-- C6 amended: the 500 + 200·i fallback schedule holds for the stats
counters in both variants; the entrance-animation fallback instead
staggers by 100·i with no base delay and never matches 500 + 200·i,
and its transaction fallback fires at a flat 2000 ms. -/
theorem fallback_delays_amended (i : ℕ) :
    statsFallbackDelay i = 500 + 200 * i ∧ statsFallbackDelayProd i = 500 + 200 * i ∧
      animFallbackDelay i ≠ 500 + 200 * i ∧ animFallbackTransactionDelay = 2000 := by
  refine ⟨?_, ?_, ?_, rfl⟩
  · simp [statsFallbackDelay]
    ring
  · simp [statsFallbackDelayProd]
    ring
  · simp [animFallbackDelay, STAGGER_DELAY]
    omega

/-- C8: both sequencer variants register every phase action during
one synchronous run at the trigger instant, so each fires at the
trigger time plus its literal offset — independent of any prior
callback's completion — and the fire times are strictly increasing,
so actions fire in offset order. -/
theorem sequencer_absolute_offsets (T : ℚ) :
    (startAnimationSequence T).map Prod.fst = [T, T + 3000, T + 5500, T + 7500] ∧
      List.Chain' (· < ·) ((startAnimationSequence T).map Prod.fst) ∧
      (startSequenceProd T).map Prod.fst = [T + 500, T + 2500, T + 4500, T + 6500] ∧
      List.Chain' (· < ·) ((startSequenceProd T).map Prod.fst) := by
  have h1 : (startAnimationSequence T).map Prod.fst = [T, T + 3000, T + 5500, T + 7500] := by
    simp [startAnimationSequence, schedule, runNow]
  have h2 : (startSequenceProd T).map Prod.fst = [T + 500, T + 2500, T + 4500, T + 6500] := by
    simp [startSequenceProd, schedule, List.range_succ]
    norm_num
  refine ⟨h1, ?_, h2, ?_⟩
  · rw [h1]
    refine List.chain'_cons.mpr ⟨by linarith, ?_⟩
    refine List.chain'_cons.mpr ⟨by linarith, ?_⟩
    exact List.chain'_pair.mpr (by linarith)
  · rw [h2]
    refine List.chain'_cons.mpr ⟨by linarith, ?_⟩
    refine List.chain'_cons.mpr ⟨by linarith, ?_⟩
    exact List.chain'_pair.mpr (by linarith)

/-- C9: for a transaction section that exists, the restart operation
clears the one-shot latch regardless of its prior value and registers
exactly the timeline a fresh trigger would register, whose first
action fires at offset 0 from the restart instant. -/
theorem restart_reruns_sequence (flag : Bool) (T : ℚ) (n : ℕ) :
    (restartTransaction flag true T n).1 = false ∧
      (restartTransaction flag true T n).2 = animateTransactions T n ∧
      (animateTransactions T (n + 1)).head? = some (T, 0) := by
  refine ⟨rfl, by simp [restartTransaction], ?_⟩
  simp [animateTransactions, List.range_succ_eq_map]

/-- Counterexample for C7 as stated: a run of the spec's example
counter whose first tick fires 1000 ms after the trigger (a legal
requestAnimationFrame schedule, non-decreasing and reaching 2000 ms)
first displays the eased value "$1156+", not "$0+". -/
theorem counter_first_write_eased :
    runVerbose p1234 0 [1000, 2000] = [("$1156+"), ("$1234+")] ∧
      (runVerbose p1234 0 [1000, 2000]).head? = some ("$1156+") ∧
      (("$1156+") : String) ≠ ("$0+") := by
  have h : runVerbose p1234 0 [1000, 2000] = [("$1156+"), ("$1234+")] := by
    norm_num [p1234, runVerbose, writeVerbose, fmtVerbose, currentVerbose, progressAt,
      easeOutQuart, startValue]
    decide
  exact ⟨h, by rw [h]; rfl, by decide⟩

/-- C7 amended: for the run with target 1234, duration 2000,
decimals 0, prefix "$", suffix "+", over any non-decreasing tick
sequence that starts at the trigger instant and reaches 2000 ms of
elapsed time: the run writes the floored eased value per processed
tick, the first displayed string is "$0+", the numeric parts of the
displayed sequence are monotonically non-decreasing, and the final
displayed string is exactly "$1234+", produced at a tick with elapsed
time at least 2000 ms. -/
theorem counter_run_monotone_amended (st : ℚ) (ts : List ℚ)
    (hsort : List.Sorted (· ≤ ·) (st :: ts))
    (hfin : ∃ t ∈ st :: ts, st + 2000 ≤ t) :
    runVerbose p1234 st (st :: ts) =
      (procTicks p1234 st (st :: ts)).map
        (fun now => ("$") ++ toString ⌊currentVerbose p1234 st now⌋ ++ ("+")) ∧
      (runVerbose p1234 st (st :: ts)).head? = some ("$0+") ∧
      List.Sorted (· ≤ ·)
        ((procTicks p1234 st (st :: ts)).map fun now => ⌊currentVerbose p1234 st now⌋) ∧
      ∃ tl, (procTicks p1234 st (st :: ts)).getLast? = some tl ∧ st + 2000 ≤ tl ∧
        (runVerbose p1234 st (st :: ts)).getLast? = some ("$1234+") := by
  have hd : (0 : ℚ) < (p1234.duration : ℚ) := by norm_num [p1234]
  have hA := runVerbose_eq_map p1234 rfl st (st :: ts)
  have hfirst : progressAt p1234.duration st st < 1 := by
    rw [progressAt_lt_one_iff hd]
    norm_num [p1234]
  have hproc : procTicks p1234 st (st :: ts) = st :: procTicks p1234 st ts := by
    rw [procTicks, if_pos hfirst]
  have hcv0 : currentVerbose p1234 st st = 0 := by
    have hp0 : progressAt p1234.duration st st = 0 := by
      norm_num [progressAt]
    norm_num [currentVerbose, startValue, easeOutQuart, hp0]
  refine ⟨hA, ?_, ?_, ?_⟩
  · rw [hA, hproc]
    simp only [List.map_cons, List.head?_cons, hcv0]
    decide
  · have hsubl := procTicks_sublist p1234 st (st :: ts)
    have hsorted2 : List.Sorted (· ≤ ·) (procTicks p1234 st (st :: ts)) :=
      List.Pairwise.sublist hsubl hsort
    exact hsorted2.map _
      (fun a b hab => Int.floor_mono (currentVerbose_mono p1234 hd (by norm_num [p1234]) st hab))
  · have hfin2 : ∃ t ∈ st :: ts, st + (p1234.duration : ℚ) ≤ t := by
      obtain ⟨t, ht, hle⟩ := hfin
      exact ⟨t, ht, by push_cast [p1234]; linarith⟩
    obtain ⟨tl, hlast, hle⟩ := procTicks_getLast p1234 hd st (st :: ts) hfin2
    have hel : (p1234.duration : ℚ) ≤ tl - st := by linarith
    have hcv : ⌊currentVerbose p1234 st tl⌋ = 1234 := by
      rw [currentVerbose_at_complete p1234 hd hel]
      norm_num [p1234]
    refine ⟨tl, hlast, by push_cast [p1234] at hle; linarith, ?_⟩
    rw [hA, List.getLast?_map, hlast]
    simp [hcv]
    decide

/-- Witness for the amended C7 on the tick schedule 0, 1000,
2000 ms. -/
theorem counter_run_monotone_amended_witness :
    List.Sorted (· ≤ ·) ((0 : ℚ) :: [1000, 2000]) ∧
      (∃ t ∈ (0 : ℚ) :: [1000, 2000], 0 + 2000 ≤ t) ∧
      (runVerbose p1234 0 ((0 : ℚ) :: [1000, 2000]) =
          (procTicks p1234 0 ((0 : ℚ) :: [1000, 2000])).map
            (fun now => ("$") ++ toString ⌊currentVerbose p1234 0 now⌋ ++ ("+")) ∧
        (runVerbose p1234 0 ((0 : ℚ) :: [1000, 2000])).head? = some ("$0+") ∧
        List.Sorted (· ≤ ·)
          ((procTicks p1234 0 ((0 : ℚ) :: [1000, 2000])).map
            fun now => ⌊currentVerbose p1234 0 now⌋) ∧
        ∃ tl, (procTicks p1234 0 ((0 : ℚ) :: [1000, 2000])).getLast? = some tl ∧
          (0 : ℚ) + 2000 ≤ tl ∧
          (runVerbose p1234 0 ((0 : ℚ) :: [1000, 2000])).getLast? = some ("$1234+")) :=
  ⟨by norm_num [List.sorted_cons], ⟨2000, by norm_num, by norm_num⟩,
    counter_run_monotone_amended 0 [1000, 2000] (by norm_num [List.sorted_cons])
      ⟨2000, by norm_num, by norm_num⟩⟩

